import Mathlib

/-!
Shallow embedding of the TSS core of the solana-mpc-tss-lib repository
(`src/tss/wallet.ts` and `src/tss/signing.ts`).

Byte buffers (`Uint8Array`) are embedded as `List Nat` of byte values.
Reading a JS typed array past its end yields `undefined`, which the `^`
operator coerces to 0; the embedding therefore reads byte `i` of a buffer
as `List.getD buf i 0`.

External collaborators (the `tweetnacl` primitives, transaction encoding
via `@solana/web3.js`, the network connection) are not part of this
repository; where a protocol step invokes one, the embedding takes the
primitive as an explicit function argument and models only the data flow
the source performs around it.
-/

namespace MPC

/-- Error kinds of the TSS core, following the spec's taxonomy in §7.  The
source throws `Error` values whose messages carry the same data (e.g.
`Insufficient signatures: have/need`, `Cannot aggregate empty key list`);
the kinds `malformedNonce` and `malformedSignature` are listed in the
taxonomy and are included so that claims about them can be stated. -/
inductive TSSError where
  | emptyKeySet
  | invalidKeyEncoding
  | malformedNonce
  | malformedSignature
  | insufficientSignatures (got need : Nat)
  deriving DecidableEq

/-- Solana network selector, from `src/tss/types.ts`. -/
inductive SolanaNetwork where
  | mainnetBeta
  | devnet
  | testnet
  deriving DecidableEq

/-- `AggregateWallet` from `src/tss/types.ts`. -/
structure AggregateWallet where
  aggregatedPublicKey : List Nat
  participantKeys : List (List Nat)
  threshold : Nat
  deriving DecidableEq

/-- `AggSignStepOneData` from `src/tss/types.ts`. -/
structure AggSignStepOneData where
  secretNonce : List Nat
  publicNonce : List Nat
  participantKey : List Nat
  deriving DecidableEq

/-- `AggSignStepTwoData` from `src/tss/types.ts`. -/
structure AggSignStepTwoData where
  partialSignature : List Nat
  publicNonce : List Nat
  participantKey : List Nat
  deriving DecidableEq

/-- `CompleteSignature` from `src/tss/types.ts`. -/
structure CompleteSignature where
  signature : List Nat
  publicKey : List Nat
  transaction : List Nat
  deriving DecidableEq

/-- `TSSTransactionDetails` from `src/tss/types.ts`.  `from` and `to` are
Lean keywords, so the fields are named `fromKey` and `toKey`; `memo` is the
optional memo string as bytes, `recentBlockhash` the blockhash string as
bytes. -/
structure TSSTransactionDetails where
  amount : Nat
  toKey : List Nat
  fromKey : List Nat
  network : SolanaNetwork
  memo : Option (List Nat)
  recentBlockhash : List Nat
  deriving DecidableEq

/-- One pass of the JS loop `for (i = 0; i < len; i++) acc[i] ^= src[i]`
over a freshly addressed accumulator: byte `i` of the result is the XOR of
byte `i` of `acc` and byte `i` of `src`, where an out-of-range read is
`undefined` and coerces to 0. -/
def xorInto (len : Nat) (acc src : List Nat) : List Nat :=
  (List.range len).map fun i => Nat.xor (acc.getD i 0) (src.getD i 0)

/-- `TSSSigningService.aggregateNonces` (`src/tss/signing.ts` lines
194-203): starts from a 32-byte zero array and XORs every nonce into it. -/
def aggregateNonces (nonces : List (List Nat)) : List Nat :=
  nonces.foldl (xorInto 32) (List.replicate 32 0)

/-- `TSSWallet.combinePublicKeys` (`src/tss/wallet.ts` lines 116-135):
throws on an empty list, returns the single key unchanged, and otherwise
XORs all key bytes into a 32-byte zero array. -/
def combinePublicKeys (keys : List (List Nat)) : Except TSSError (List Nat) :=
  if keys.length = 0 then .error .emptyKeySet
  else if keys.length = 1 then .ok (keys.getD 0 [])
  else .ok (keys.foldl (xorInto 32) (List.replicate 32 0))

/-- The JS expression `threshold || participantKeys.length` used by
`aggregateKeys`: an omitted argument is `undefined` (falsy) and a supplied
0 is falsy, both falling back to the key count; any other supplied value
is used as given. -/
def defaultThreshold (threshold : Option Nat) (n : Nat) : Nat :=
  match threshold with
  | none => n
  | some t => if t = 0 then n else t

/-- `TSSWallet.aggregateKeys` (`src/tss/wallet.ts` lines 70-79): combines
the keys (propagating the empty-list failure) and builds the wallet record
with the input key list and `threshold || participantKeys.length`. -/
def aggregateKeys (participantKeys : List (List Nat)) (threshold : Option Nat) :
    Except TSSError AggregateWallet :=
  (combinePublicKeys participantKeys).map fun combinedKey =>
    { aggregatedPublicKey := combinedKey
      participantKeys := participantKeys
      threshold := defaultThreshold threshold participantKeys.length }

/-- The `seedKey` normalisation inside `createPartialSignature`
(`src/tss/signing.ts` lines 208-232): a 64-byte secret key is truncated to
its first 32 bytes; a key of any other length besides 32 is copied into a
fresh 32-byte zero array (so it is truncated to at most 32 bytes and
zero-padded up to 32); a 32-byte key is used as is. -/
def seedKeyOf (secretKey : List Nat) : List Nat :=
  if secretKey.length = 64 then secretKey.take 32
  else if secretKey.length ≠ 32 then
    secretKey.take (min 32 secretKey.length) ++
      List.replicate (32 - min 32 secretKey.length) 0
  else secretKey

/-- `TSSSigningService.createPartialSignature` (`src/tss/signing.ts` lines
208-232).  The source builds `seedKey` from `secretKey`, derives a keypair
with `nacl.sign.keyPair.fromSeed(seedKey)` and returns
`nacl.sign.detached(message, keypair.secretKey)`.  Both `tweetnacl` calls
are external library code; the embedding abstracts their composition as
the argument `signFromSeed seed message`.  The parameters `secretNonce`
and `aggregatedNonce` are accepted but never read by the source body. -/
def createPartialSignature (signFromSeed : List Nat → List Nat → List Nat)
    (message secretKey secretNonce aggregatedNonce : List Nat) : List Nat :=
  signFromSeed (seedKeyOf secretKey) message

/-- `TSSSigningService.aggregateSignStepOne` (`src/tss/signing.ts` lines
64-82).  The fresh random nonce `nacl.randomBytes(32)` is passed in
explicitly as `secretNonce`; `hash` stands for `nacl.hash` (SHA-512) and
`derivePublicKey` for the key derivation helper, both external to the
protocol step.  `publicNonce` is `nacl.hash(secretNonce).slice(0, 32)`. -/
def aggregateSignStepOne (hash derivePublicKey : List Nat → List Nat)
    (secretNonce participantSecretKey : List Nat)
    (transactionDetails : TSSTransactionDetails) : AggSignStepOneData :=
  { secretNonce := secretNonce
    publicNonce := (hash secretNonce).take 32
    participantKey := derivePublicKey participantSecretKey }

/-- `TSSSigningService.aggregateSignStepTwo` (`src/tss/signing.ts` lines
88-114).  `encodeTx` stands for the external transaction codec
(`createTransactionFromDetails` followed by `serializeMessage`).  The body
aggregates the nonces, produces the partial signature, and returns the
step-two record; it has no failure path of its own, so every branch is
`.ok`. -/
def aggregateSignStepTwo (signFromSeed : List Nat → List Nat → List Nat)
    (encodeTx : TSSTransactionDetails → List Nat)
    (stepOneData : AggSignStepOneData) (participantSecretKey : List Nat)
    (transactionDetails : TSSTransactionDetails)
    (allPublicNonces : List (List Nat)) : Except TSSError AggSignStepTwoData :=
  let messageToSign := encodeTx transactionDetails
  let aggregatedNonce := aggregateNonces allPublicNonces
  .ok { partialSignature := createPartialSignature signFromSeed messageToSign
          participantSecretKey stepOneData.secretNonce aggregatedNonce
        publicNonce := stepOneData.publicNonce
        participantKey := stepOneData.participantKey }

/-- `TSSSigningService.aggregatePartialSignatures` (`src/tss/signing.ts`
lines 237-255): XORs every `partialSignature` buffer into a 64-byte zero
array and returns it with the wallet's aggregated key and an empty
transaction field. -/
def aggregatePartialSignatures (partialSignatures : List AggSignStepTwoData)
    (aggregateWallet : AggregateWallet) : CompleteSignature :=
  { signature := partialSignatures.foldl
      (fun acc p => xorInto 64 acc p.partialSignature) (List.replicate 64 0)
    publicKey := aggregateWallet.aggregatedPublicKey
    transaction := [] }

/-- The signature-producing core of
`TSSSigningService.aggregateSignaturesAndBroadcast` (`src/tss/signing.ts`
lines 120-147): the threshold gate runs first, throwing
`Insufficient signatures: have/need` when too few partial signatures are
supplied; otherwise the partial signatures are combined.  Transaction
construction, signature attachment and broadcast are external-collaborator
calls around this core; the embedding returns the `CompleteSignature` the
source attaches before broadcasting. -/
def aggregateSignaturesAndBroadcast (partialSignatures : List AggSignStepTwoData)
    (transactionDetails : TSSTransactionDetails)
    (aggregateWallet : AggregateWallet) : Except TSSError CompleteSignature :=
  if partialSignatures.length < aggregateWallet.threshold then
    .error (.insufficientSignatures partialSignatures.length aggregateWallet.threshold)
  else
    .ok (aggregatePartialSignatures partialSignatures aggregateWallet)

/-- Spec-side reading of the combination rule: the byte-wise XOR, at index
`i`, of a family of byte buffers (out-of-range reads contribute 0, which
is also how the JS loops behave). -/
def xorByteAt (buffers : List (List Nat)) (i : Nat) : Nat :=
  buffers.foldr (fun b acc => Nat.xor (b.getD i 0) acc) 0

/-- Reading any index of an all-zero buffer yields 0. -/
lemma getD_replicate_zero (n i : Nat) : (List.replicate n (0 : Nat)).getD i 0 = 0 := by
  rw [List.getD_eq_getElem?_getD, List.getElem?_replicate]
  split <;> rfl

/-- `xorInto` always produces a buffer of length `len`. -/
lemma length_xorInto (len : Nat) (a b : List Nat) : (xorInto len a b).length = len := by
  simp [xorInto]

/-- Byte `i` of `xorInto len a b` is the XOR of byte `i` of `a` and byte `i`
of `b`, for `i < len`. -/
lemma getD_xorInto (len : Nat) (a b : List Nat) (i : Nat) (h : i < len) :
    (xorInto len a b).getD i 0 = Nat.xor (a.getD i 0) (b.getD i 0) := by
  unfold xorInto
  rw [List.getD_eq_getElem?_getD, List.getElem?_map, List.getElem?_range h]
  rfl

/-- Folding `xorInto` over any family preserves the accumulator length. -/
lemma length_foldl_xorInto (len : Nat) (ls : List (List Nat)) (init : List Nat)
    (h : init.length = len) : (ls.foldl (xorInto len) init).length = len := by
  induction ls generalizing init with
  | nil => simpa using h
  | cons b ls ih => exact ih _ (length_xorInto len init b)

/-- XOR on byte values is left-commutative. -/
lemma xor_left_comm (a b c : Nat) : Nat.xor a (Nat.xor b c) = Nat.xor b (Nat.xor a c) := by
  show a ^^^ (b ^^^ c) = b ^^^ (a ^^^ c)
  rw [← Nat.xor_assoc, Nat.xor_comm a b, Nat.xor_assoc]

/-- Byte `i` of the `xorInto` fold is the XOR of byte `i` of the initial
accumulator with the byte-wise XOR of the family at `i`. -/
lemma getD_foldl_xorInto (len i : Nat) (hi : i < len) :
    ∀ (ls : List (List Nat)) (init : List Nat),
      (ls.foldl (xorInto len) init).getD i 0
        = Nat.xor (init.getD i 0) (xorByteAt ls i) := by
  intro ls
  induction ls with
  | nil =>
      intro init
      exact (Nat.xor_zero _).symm
  | cons b ls ih =>
      intro init
      show (ls.foldl (xorInto len) (xorInto len init b)).getD i 0 = _
      rw [ih, getD_xorInto len init b i hi]
      exact Nat.xor_assoc _ _ _

/-- Byte `i` of the fold starting from the zero buffer is exactly the
byte-wise XOR of the family at `i`. -/
lemma getD_foldl_xorInto_zero (len i : Nat) (hi : i < len) (ls : List (List Nat)) :
    (ls.foldl (xorInto len) (List.replicate len 0)).getD i 0 = xorByteAt ls i := by
  rw [getD_foldl_xorInto len i hi, getD_replicate_zero]
  exact Nat.zero_xor _

/-- The byte-wise XOR of a family is invariant under permutation of the
family (XOR is commutative and associative). -/
lemma xorByteAt_perm (ls ls' : List (List Nat)) (h : ls.Perm ls') (i : Nat) :
    xorByteAt ls i = xorByteAt ls' i := by
  induction h with
  | nil => rfl
  | cons x _ ih =>
      show Nat.xor (x.getD i 0) (xorByteAt _ i) = Nat.xor (x.getD i 0) (xorByteAt _ i)
      rw [ih]
  | swap x y l =>
      show Nat.xor (y.getD i 0) (Nat.xor (x.getD i 0) (xorByteAt l i))
        = Nat.xor (x.getD i 0) (Nat.xor (y.getD i 0) (xorByteAt l i))
      exact xor_left_comm _ _ _
  | trans _ _ ih₁ ih₂ => rw [ih₁, ih₂]

/-- The `xorInto` fold from the zero buffer is invariant under permutation
of the folded family. -/
lemma foldl_xorInto_perm (len : Nat) (ls ls' : List (List Nat)) (h : ls.Perm ls') :
    ls.foldl (xorInto len) (List.replicate len 0)
      = ls'.foldl (xorInto len) (List.replicate len 0) := by
  apply List.ext_getElem
  · rw [length_foldl_xorInto len ls _ (List.length_replicate len 0),
        length_foldl_xorInto len ls' _ (List.length_replicate len 0)]
  · intro i h₁ h₂
    have hi : i < len := by
      rwa [length_foldl_xorInto len ls _ (List.length_replicate len 0)] at h₁
    rw [← List.getD_eq_getElem _ 0 h₁, ← List.getD_eq_getElem _ 0 h₂,
        getD_foldl_xorInto_zero len i hi, getD_foldl_xorInto_zero len i hi,
        xorByteAt_perm ls ls' h i]

/-- `combinePublicKeys` succeeds on every non-empty key list. -/
lemma combinePublicKeys_ok_of_ne_nil (keys : List (List Nat)) (h : keys ≠ []) :
    ∃ r, combinePublicKeys keys = .ok r := by
  unfold combinePublicKeys
  rw [if_neg (fun h0 => h (List.length_eq_zero.mp h0))]
  by_cases h1 : keys.length = 1
  · rw [if_pos h1]; exact ⟨_, rfl⟩
  · rw [if_neg h1]; exact ⟨_, rfl⟩

/-- With at least two keys, `combinePublicKeys` takes the XOR branch. -/
lemma combinePublicKeys_of_two_le (keys : List (List Nat)) (h : 2 ≤ keys.length) :
    combinePublicKeys keys = .ok (keys.foldl (xorInto 32) (List.replicate 32 0)) := by
  unfold combinePublicKeys
  rw [if_neg (by omega), if_neg (by omega)]

/-! Concrete values used by witnesses and counterexamples. -/

/-- A concrete 32-byte participant key. -/
def keyA : List Nat := List.replicate 32 1

/-- A second concrete 32-byte participant key. -/
def keyB : List Nat := List.replicate 32 2

/-- A third concrete 32-byte participant key. -/
def keyC : List Nat := List.replicate 32 3

/-- A concrete transaction context. -/
def txEx : TSSTransactionDetails :=
  { amount := 5
    toKey := keyB
    fromKey := keyA
    network := .devnet
    memo := none
    recentBlockhash := [9, 9] }

/-- A concrete instantiation of the external signing primitive (the
composition of `nacl.sign.keyPair.fromSeed` and `nacl.sign.detached`),
used only to state closed facts about the functions that take the
primitive as a parameter.  It is injective in both arguments, since the
seed handed to it by `createPartialSignature` always has length 32. -/
def signFromSeedModel (seed message : List Nat) : List Nat := seed ++ message

/-- A concrete instantiation of the external transaction codec. -/
def encodeTxModel (d : TSSTransactionDetails) : List Nat :=
  d.fromKey ++ d.toKey ++ [d.amount] ++ d.recentBlockhash

/-- A concrete well-formed step-two record (64-byte partial signature). -/
def stepTwoEx : AggSignStepTwoData :=
  { partialSignature := List.replicate 64 7
    publicNonce := List.replicate 32 4
    participantKey := keyA }

/-- A concrete step-one record. -/
def stepOneEx : AggSignStepOneData :=
  { secretNonce := [5]
    publicNonce := [6]
    participantKey := [7] }

/-- A concrete 2-of-3 group wallet. -/
def wallet23 : AggregateWallet :=
  { aggregatedPublicKey := keyA
    participantKeys := [keyA, keyB, keyC]
    threshold := 2 }

/-- A concrete 1-of-1 group wallet. -/
def wallet11 : AggregateWallet :=
  { aggregatedPublicKey := keyA
    participantKeys := [keyA]
    threshold := 1 }

/-- A step-two record whose `partialSignature` buffer is empty, hence not
64 bytes long. -/
def shortPartial : AggSignStepTwoData :=
  { partialSignature := []
    publicNonce := []
    participantKey := keyA }

/-! The claims. -/

/-- Claim C1: for every list of partial signatures, transaction context
and group wallet, `aggregateSignaturesAndBroadcast` fails with
`InsufficientSignatures(have, need)` — `have` the number of partial
signatures supplied, `need` the wallet's threshold — whenever the count is
strictly below the threshold, before any combination is attempted. -/
theorem claim_C1 (partials : List AggSignStepTwoData) (tx : TSSTransactionDetails)
    (w : AggregateWallet) (h : partials.length < w.threshold) :
    aggregateSignaturesAndBroadcast partials tx w
      = .error (.insufficientSignatures partials.length w.threshold) := by
  unfold aggregateSignaturesAndBroadcast
  rw [if_pos h]

/-- Claim C1 witness: a 2-of-3 group given exactly 1 partial signature
fails with `InsufficientSignatures(1, 2)`. -/
theorem claim_C1_witness :
    [stepTwoEx].length < wallet23.threshold ∧
      aggregateSignaturesAndBroadcast [stepTwoEx] txEx wallet23
        = .error (.insufficientSignatures 1 2) :=
  ⟨by decide, claim_C1 [stepTwoEx] txEx wallet23 (by decide)⟩

/-- Claim C2 (amended): the partial signature produced by Round 2 is a
function of the message and the participant's secret key only — the
source's `createPartialSignature` never reads `secretNonce` or
`aggregatedNonce` — so any two secret nonces and any two sets of public
nonces yield the identical `partialSignature`. -/
theorem claim_C2 (signFromSeed : List Nat → List Nat → List Nat)
    (encodeTx : TSSTransactionDetails → List Nat)
    (s1 s1' : AggSignStepOneData) (sk : List Nat) (tx : TSSTransactionDetails)
    (ns ns' : List (List Nat)) :
    (aggregateSignStepTwo signFromSeed encodeTx s1 sk tx ns).map
        (fun d => d.partialSignature)
      = .ok (signFromSeed (seedKeyOf sk) (encodeTx tx))
    ∧ (aggregateSignStepTwo signFromSeed encodeTx s1 sk tx ns).map
        (fun d => d.partialSignature)
      = (aggregateSignStepTwo signFromSeed encodeTx s1' sk tx ns').map
        (fun d => d.partialSignature) :=
  ⟨rfl, rfl⟩

/-- Claim C2 counterexample: at a fixed concrete message and secret key
there is no pair of secret nonces or of public-nonce sets for which the
produced partial signatures differ, refuting the claimed existence. -/
theorem claim_C2_cex :
    ¬ ∃ (sn sn' : List Nat) (ns ns' : List (List Nat)),
      createPartialSignature signFromSeedModel (encodeTxModel txEx) keyA sn
          (aggregateNonces ns)
        ≠ createPartialSignature signFromSeedModel (encodeTxModel txEx) keyA sn'
          (aggregateNonces ns') := by
  rintro ⟨sn, sn', ns, ns', h⟩
  exact h rfl

/-- Claim C7: key aggregation with an empty key list always fails with
`EmptyKeySet`, for any present or absent threshold argument. -/
theorem claim_C7 (t : Option Nat) : aggregateKeys [] t = .error .emptyKeySet := rfl

/-- Claim C8 (amended): with exactly one key `k`, the returned wallet has
`aggregatedKey = k` unchanged for every threshold argument; its threshold
is `threshold || 1`, so it equals 1 exactly when the argument is omitted
(or 0, which is falsy) — a supplied nonzero threshold is used as given,
not forced to 1. -/
theorem claim_C8 (k : List Nat) (t : Option Nat) :
    aggregateKeys [k] t
        = .ok { aggregatedPublicKey := k, participantKeys := [k],
                threshold := defaultThreshold t 1 }
    ∧ aggregateKeys [k] none
        = .ok { aggregatedPublicKey := k, participantKeys := [k], threshold := 1 } :=
  ⟨rfl, rfl⟩

/-- Claim C8 counterexample: one key with threshold argument 2 yields a
wallet whose threshold is 2, not 1. -/
theorem claim_C8_cex :
    aggregateKeys [keyA] (some 2)
        = .ok { aggregatedPublicKey := keyA, participantKeys := [keyA], threshold := 2 }
    ∧ (2 : Nat) ≠ 1 :=
  ⟨rfl, by decide⟩

/-- Claim C9: Round 1 derives `publicNonce` as the first 32 bytes of the
hash of `secretNonce` (`nacl.hash`, SHA-512, abstracted as the `hash`
argument), a deterministic function of `secretNonce` alone — the secret
key and the transaction context do not influence it. -/
theorem claim_C9 (hash derivePub : List Nat → List Nat)
    (nonce sk sk' : List Nat) (tx tx' : TSSTransactionDetails) :
    (aggregateSignStepOne hash derivePub nonce sk tx).publicNonce
      = (hash nonce).take 32
    ∧ (aggregateSignStepOne hash derivePub nonce sk tx).publicNonce
      = (aggregateSignStepOne hash derivePub nonce sk' tx').publicNonce :=
  ⟨rfl, rfl⟩

/-- Claim C3 (amended): on a non-empty key list the wallet's participants
are the input keys and its threshold is `threshold || N`: it equals `N`
when the argument is omitted (or 0) and equals a supplied nonzero
argument as given.  The threshold is always at least 1, and it is bounded
by `|participants|` only when the supplied argument is — the code never
validates the caller's value against the key count. -/
theorem claim_C3 (keys : List (List Nat)) (t : Option Nat) (h : keys ≠ []) :
    ∃ w, aggregateKeys keys t = .ok w
      ∧ w.participantKeys = keys
      ∧ 1 ≤ w.threshold
      ∧ w.threshold = defaultThreshold t keys.length
      ∧ (t = none → w.threshold = keys.length)
      ∧ (∀ n, t = some n → 1 ≤ n → n ≤ keys.length → w.threshold ≤ keys.length) := by
  obtain ⟨r, hr⟩ := combinePublicKeys_ok_of_ne_nil keys h
  have hn : 1 ≤ keys.length := List.length_pos.mpr h
  refine ⟨{ aggregatedPublicKey := r, participantKeys := keys,
            threshold := defaultThreshold t keys.length },
          ?_, rfl, ?_, rfl, ?_, ?_⟩
  · unfold aggregateKeys
    rw [hr]
    rfl
  · unfold defaultThreshold
    cases t with
    | none => exact hn
    | some n =>
        dsimp only
        split
        · exact hn
        · omega
  · intro ht
    subst ht
    rfl
  · intro n htn h1n hnle
    subst htn
    unfold defaultThreshold
    dsimp only
    split
    · exact Nat.le_refl _
    · exact hnle

/-- Claim C3 counterexample: a single key with threshold argument 5 yields
a wallet whose threshold is 5, violating `threshold ≤ |participants| = 1`.
-/
theorem claim_C3_cex :
    aggregateKeys [keyA] (some 5)
        = .ok { aggregatedPublicKey := keyA, participantKeys := [keyA], threshold := 5 }
    ∧ ¬ (5 : Nat) ≤ [keyA].length :=
  ⟨rfl, by decide⟩

/-- Claim C3 witness: a two-key list with threshold argument 2 satisfies
the amended statement. -/
theorem claim_C3_witness :
    ([keyA, keyB] : List (List Nat)) ≠ [] ∧
      (∃ w, aggregateKeys [keyA, keyB] (some 2) = .ok w
        ∧ w.participantKeys = [keyA, keyB]
        ∧ 1 ≤ w.threshold
        ∧ w.threshold = defaultThreshold (some 2) ([keyA, keyB] : List (List Nat)).length
        ∧ ((some 2 : Option Nat) = none →
            w.threshold = ([keyA, keyB] : List (List Nat)).length)
        ∧ (∀ n, (some 2 : Option Nat) = some n → 1 ≤ n →
            n ≤ ([keyA, keyB] : List (List Nat)).length →
            w.threshold ≤ ([keyA, keyB] : List (List Nat)).length)) :=
  ⟨by decide, claim_C3 [keyA, keyB] (some 2) (by decide)⟩

/-- Claim C4 (amended): `aggregateSignaturesAndBroadcast` never combines
unless the threshold count is met, but it performs no byte-length
validation: whenever the count is met it returns the combined signature,
and byte `i` of that signature is the XOR, over the supplied partial
signatures, of byte `i` read with out-of-range indices contributing 0 —
a buffer that is not 64 bytes is combined silently rather than rejected
with `MalformedSignature`. -/
theorem claim_C4 (partials : List AggSignStepTwoData) (tx : TSSTransactionDetails)
    (w : AggregateWallet) (h : w.threshold ≤ partials.length) :
    aggregateSignaturesAndBroadcast partials tx w
        = .ok (aggregatePartialSignatures partials w)
    ∧ ∀ i, i < 64 → (aggregatePartialSignatures partials w).signature.getD i 0
        = xorByteAt (partials.map (fun p => p.partialSignature)) i := by
  constructor
  · unfold aggregateSignaturesAndBroadcast
    rw [if_neg (Nat.not_lt.mpr h)]
  · intro i hi
    show (partials.foldl (fun acc p => xorInto 64 acc p.partialSignature)
        (List.replicate 64 0)).getD i 0 = _
    rw [← List.foldl_map (fun p : AggSignStepTwoData => p.partialSignature) (xorInto 64)]
    exact getD_foldl_xorInto_zero 64 i hi _

/-- Claim C4 counterexample: a wallet with threshold 1 given one partial
signature whose buffer is empty (0 bytes, not 64) succeeds and returns a
combined signature, instead of failing with `MalformedSignature`. -/
theorem claim_C4_cex :
    shortPartial.partialSignature.length ≠ 64 ∧
      aggregateSignaturesAndBroadcast [shortPartial] txEx wallet11
        = .ok { signature := List.replicate 64 0, publicKey := keyA, transaction := [] } :=
  ⟨by decide, by rfl⟩

/-- Claim C4 witness: the amended statement at a threshold-1 wallet with a
malformed (empty) partial-signature buffer. -/
theorem claim_C4_witness :
    wallet11.threshold ≤ [shortPartial].length ∧
      (aggregateSignaturesAndBroadcast [shortPartial] txEx wallet11
          = .ok (aggregatePartialSignatures [shortPartial] wallet11)
        ∧ ∀ i, i < 64 →
            (aggregatePartialSignatures [shortPartial] wallet11).signature.getD i 0
              = xorByteAt ([shortPartial].map (fun p => p.partialSignature)) i) :=
  ⟨by decide, claim_C4 [shortPartial] txEx wallet11 (by decide)⟩

/-- Claim C5 (amended): Round 2 performs no nonce-length validation and
never fails — for every input, including nonce entries that are not 32
bytes, it returns a step-two record; the combined nonce is always 32
bytes, each byte the XOR of the entries' bytes at that index with missing
bytes (of short entries) contributing 0 and bytes beyond index 31 of long
entries ignored. -/
theorem claim_C5 (signFromSeed : List Nat → List Nat → List Nat)
    (encodeTx : TSSTransactionDetails → List Nat)
    (s1 : AggSignStepOneData) (sk : List Nat) (tx : TSSTransactionDetails)
    (ns : List (List Nat)) :
    (∃ d, aggregateSignStepTwo signFromSeed encodeTx s1 sk tx ns = .ok d)
    ∧ (aggregateNonces ns).length = 32
    ∧ ∀ i, i < 32 → (aggregateNonces ns).getD i 0 = xorByteAt ns i := by
  refine ⟨⟨_, rfl⟩, ?_, ?_⟩
  · exact length_foldl_xorInto 32 ns _ (List.length_replicate 32 0)
  · intro i hi
    exact getD_foldl_xorInto_zero 32 i hi ns

/-- Claim C5 counterexample: a public-nonce list containing a 2-byte entry
makes Round 2 succeed with a step-two record, not fail with
`MalformedNonce`. -/
theorem claim_C5_cex :
    ([1, 2] : List Nat).length ≠ 32 ∧
      aggregateSignStepTwo signFromSeedModel encodeTxModel stepOneEx keyA txEx [[1, 2]]
        = .ok { partialSignature := signFromSeedModel (seedKeyOf keyA) (encodeTxModel txEx)
                publicNonce := stepOneEx.publicNonce
                participantKey := stepOneEx.participantKey } :=
  ⟨by decide, rfl⟩

/-- Claim C6: all three combination points are byte-wise XOR: for two or
more keys the aggregated public key is 32 bytes whose byte `i` is the XOR
of the keys' bytes at `i`; the combined session nonce is 32 bytes whose
byte `i` is the XOR of the supplied public nonces' bytes at `i`; and the
aggregated signature is 64 bytes whose byte `i` is the XOR of the supplied
partial signatures' bytes at `i`. -/
theorem claim_C6 (keys nonces : List (List Nat)) (partials : List AggSignStepTwoData)
    (w : AggregateWallet) (hk : 2 ≤ keys.length) :
    (∃ r, combinePublicKeys keys = .ok r ∧ r.length = 32
      ∧ ∀ i, i < 32 → r.getD i 0 = xorByteAt keys i)
    ∧ ((aggregateNonces nonces).length = 32
      ∧ ∀ i, i < 32 → (aggregateNonces nonces).getD i 0 = xorByteAt nonces i)
    ∧ ((aggregatePartialSignatures partials w).signature.length = 64
      ∧ ∀ i, i < 64 → (aggregatePartialSignatures partials w).signature.getD i 0
          = xorByteAt (partials.map (fun p => p.partialSignature)) i) := by
  refine ⟨⟨keys.foldl (xorInto 32) (List.replicate 32 0),
      combinePublicKeys_of_two_le keys hk, ?_, ?_⟩, ⟨?_, ?_⟩, ⟨?_, ?_⟩⟩
  · exact length_foldl_xorInto 32 keys _ (List.length_replicate 32 0)
  · intro i hi
    exact getD_foldl_xorInto_zero 32 i hi keys
  · exact length_foldl_xorInto 32 nonces _ (List.length_replicate 32 0)
  · intro i hi
    exact getD_foldl_xorInto_zero 32 i hi nonces
  · show (partials.foldl (fun acc p => xorInto 64 acc p.partialSignature)
        (List.replicate 64 0)).length = 64
    rw [← List.foldl_map (fun p : AggSignStepTwoData => p.partialSignature) (xorInto 64)]
    exact length_foldl_xorInto 64 _ _ (List.length_replicate 64 0)
  · intro i hi
    show (partials.foldl (fun acc p => xorInto 64 acc p.partialSignature)
        (List.replicate 64 0)).getD i 0 = _
    rw [← List.foldl_map (fun p : AggSignStepTwoData => p.partialSignature) (xorInto 64)]
    exact getD_foldl_xorInto_zero 64 i hi _

/-- Claim C6 witness: the XOR characterisation at a concrete two-key
group, nonce list and partial-signature list. -/
theorem claim_C6_witness :
    2 ≤ ([keyA, keyB] : List (List Nat)).length ∧
      ((∃ r, combinePublicKeys [keyA, keyB] = .ok r ∧ r.length = 32
        ∧ ∀ i, i < 32 → r.getD i 0 = xorByteAt [keyA, keyB] i)
      ∧ ((aggregateNonces [stepTwoEx.publicNonce]).length = 32
        ∧ ∀ i, i < 32 → (aggregateNonces [stepTwoEx.publicNonce]).getD i 0
            = xorByteAt [stepTwoEx.publicNonce] i)
      ∧ ((aggregatePartialSignatures [stepTwoEx] wallet23).signature.length = 64
        ∧ ∀ i, i < 64 →
            (aggregatePartialSignatures [stepTwoEx] wallet23).signature.getD i 0
              = xorByteAt ([stepTwoEx].map (fun p => p.partialSignature)) i)) :=
  ⟨by decide,
    claim_C6 [keyA, keyB] [stepTwoEx.publicNonce] [stepTwoEx] wallet23 (by decide)⟩

/-- Claim C10: for two or more keys the aggregated public key is invariant
under any permutation of the input key list (byte-wise XOR is commutative
and associative), while the wallet's participant list follows the input
order of each call. -/
theorem claim_C10 (keys keys' : List (List Nat)) (t t' : Option Nat)
    (hp : keys.Perm keys') (h2 : 2 ≤ keys.length) :
    ∃ w w', aggregateKeys keys t = .ok w ∧ aggregateKeys keys' t' = .ok w'
      ∧ w.aggregatedPublicKey = w'.aggregatedPublicKey
      ∧ w.participantKeys = keys ∧ w'.participantKeys = keys' := by
  have h2' : 2 ≤ keys'.length := hp.length_eq ▸ h2
  refine ⟨{ aggregatedPublicKey := keys.foldl (xorInto 32) (List.replicate 32 0),
            participantKeys := keys, threshold := defaultThreshold t keys.length },
          { aggregatedPublicKey := keys'.foldl (xorInto 32) (List.replicate 32 0),
            participantKeys := keys', threshold := defaultThreshold t' keys'.length },
          ?_, ?_, ?_, rfl, rfl⟩
  · unfold aggregateKeys
    rw [combinePublicKeys_of_two_le keys h2]
    rfl
  · unfold aggregateKeys
    rw [combinePublicKeys_of_two_le keys' h2']
    rfl
  · exact foldl_xorInto_perm 32 keys keys' hp

/-- Claim C10 witness: swapping a concrete two-key list leaves the
aggregated key unchanged while each wallet's participant list follows its
own input order. -/
theorem claim_C10_witness :
    ([keyA, keyB] : List (List Nat)).Perm [keyB, keyA]
    ∧ 2 ≤ ([keyA, keyB] : List (List Nat)).length
    ∧ (∃ w w', aggregateKeys [keyA, keyB] none = .ok w
        ∧ aggregateKeys [keyB, keyA] none = .ok w'
        ∧ w.aggregatedPublicKey = w'.aggregatedPublicKey
        ∧ w.participantKeys = [keyA, keyB] ∧ w'.participantKeys = [keyB, keyA]) :=
  ⟨List.Perm.swap keyB keyA [], by decide,
    claim_C10 [keyA, keyB] [keyB, keyA] none none (List.Perm.swap keyB keyA []) (by decide)⟩

end MPC
